import Mathlib

/-!
Shallow embedding of `Source/instrumentation/__init__.py` from the
`xray-poc` repository, together with proofs of the specification claims
about the instrumentation decorator.

The module wraps a unit of work, optionally opens a named X-Ray
subsegment around it, runs a caller-supplied extractor on the result and
writes the extracted record into the current innermost trace scope,
containing instrumentation-time errors.  We model the X-Ray backend as an
explicit state (a segment, a stack of subsegments, and a chronological
event trace), Python values as an inductive type, Python exceptions via
`Except`, and possible failures of the backend write calls via an
injectable fault model.
-/

namespace Instrumentation

/-- Model of the Python values that flow through the instrumentation
module: strings, booleans, ints, floats (as rationals), dictionaries and
`None`. -/
inductive PyVal where
  | pstr : String → PyVal
  | pbool : Bool → PyVal
  | pint : Int → PyVal
  | pfloat : Rat → PyVal
  | pdict : List (PyVal × PyVal) → PyVal
  | pnone : PyVal

/-- `type(v) == str` in Python. -/
def PyVal.isStr : PyVal → Bool
  | .pstr _ => true
  | _ => false

/-- `type(v) == dict` in Python. -/
def PyVal.isDict : PyVal → Bool
  | .pdict _ => true
  | _ => false

/-- `type(value) in [str, bool] or isinstance(value, numbers.Number)`:
the value types accepted for a searchable (annotation) write. -/
def PyVal.isSearchableType : PyVal → Bool
  | .pstr _ => true
  | .pbool _ => true
  | .pint _ => true
  | .pfloat _ => true
  | _ => false

/-- Model of a Python exception: either a `ValueError` raised by the
validation code of the module, or any other exception (from the wrapped
function, the recorder, or the backend), identified by its `repr`. -/
inductive PyErr where
  | valueError : String → PyErr
  | exception : String → PyErr

/-- `error.__repr__()` as used by `__record_error__`. -/
def PyErr.reprStr : PyErr → String
  | .valueError m => "ValueError(\x27" ++ m ++ "\x27)"
  | .exception r => r

/-- The `InstrumentationRecord` named tuple: both fields default to
`None`; a present field is a dictionary. -/
structure Record where
  searchable : Option (List (PyVal × PyVal)) := none
  non_searchable : Option (List (PyVal × PyVal)) := none

/-- A value returned by the recorder function: the wrapper only acts on
instances of `Record` (`isinstance(data, Record)`), any other value is
ignored. -/
inductive Extracted where
  | record : Record → Extracted
  | other : PyVal → Extracted

/-- Keyword arguments of a Python call. -/
abbrev Kwargs := List (String × PyVal)

/-- An X-Ray span (segment or subsegment): its annotations and metadata,
in the order they were written. -/
structure Span where
  name : String
  annotations : List (String × PyVal) := []
  metadata : List (String × PyVal) := []

/-- Observable events of one wrapped call, in chronological order. -/
inductive Event where
  | beginSub : String → Event
  | endSub : Event
  | putAnn : String → PyVal → Event
  | putMeta : String → PyVal → Event
  | callF : List PyVal → Kwargs → Event
  | callExtractor : PyVal → Kwargs → Event

def Event.isScope : Event → Bool
  | .beginSub _ => true
  | .endSub => true
  | _ => false

def Event.isWrite : Event → Bool
  | .putAnn _ _ => true
  | .putMeta _ _ => true
  | _ => false

def Event.isPutAnn : Event → Bool
  | .putAnn _ _ => true
  | _ => false

def Event.isPutMeta : Event → Bool
  | .putMeta _ _ => true
  | _ => false

def Event.isCallF : Event → Bool
  | .callF _ _ => true
  | _ => false

def Event.isCallExtractor : Event → Bool
  | .callExtractor _ _ => true
  | _ => false

/-- The state of the external X-Ray recorder: the current segment, the
stack of open subsegments (head innermost), and the chronological trace
of observable events of the run. -/
structure XrayState where
  segment : Span
  subsegments : List Span := []
  trace : List Event := []

/-- A fresh state with one open segment and nothing recorded. -/
def initState : XrayState := { segment := { name := "segment" } }

/-- Fault model for the backend write calls: `annotationFault k v = some e`
means `span.put_annotation(k, v)` raises `e`; likewise for metadata. -/
structure Faults where
  annotationFault : String → PyVal → Option PyErr
  metadataFault : String → PyVal → Option PyErr

/-- The backend write calls never raise. -/
def noFaults : Faults :=
  { annotationFault := fun _ _ => none, metadataFault := fun _ _ => none }

/-- Append an observable event to the trace. -/
def logEvent (e : Event) (st : XrayState) : XrayState :=
  { st with trace := st.trace ++ [e] }

/-- `xray_recorder.begin_subsegment(name)`: push a fresh subsegment. -/
def beginSubsegment (name : String) (st : XrayState) : XrayState :=
  { st with subsegments := ({ name := name } :: st.subsegments),
            trace := st.trace ++ [Event.beginSub name] }

/-- `xray_recorder.end_subsegment()`: pop the innermost subsegment. -/
def endSubsegment (st : XrayState) : XrayState :=
  match st.subsegments with
  | [] => { st with trace := st.trace ++ [Event.endSub] }
  | _ :: rest => { st with subsegments := rest,
                           trace := st.trace ++ [Event.endSub] }

/-- `span.put_annotation(key, value)` where `span` is the innermost
active scope (the current subsegment if one is active, else the
segment), as selected by `record_data`. -/
def putAnnotationInnermost (key : String) (value : PyVal) (st : XrayState) :
    XrayState :=
  match st.subsegments with
  | s :: rest =>
      let s1 := { s with annotations := s.annotations ++ [(key, value)] }
      { st with subsegments := (s1 :: rest),
                trace := st.trace ++ [Event.putAnn key value] }
  | [] =>
      let g1 :=
        { st.segment with
            annotations := st.segment.annotations ++ [(key, value)] }
      { st with segment := g1,
                trace := st.trace ++ [Event.putAnn key value] }

/-- `span.put_metadata(key, value)` on the innermost active scope. -/
def putMetadataInnermost (key : String) (value : PyVal) (st : XrayState) :
    XrayState :=
  match st.subsegments with
  | s :: rest =>
      let s1 := { s with metadata := s.metadata ++ [(key, value)] }
      { st with subsegments := (s1 :: rest),
                trace := st.trace ++ [Event.putMeta key value] }
  | [] =>
      let g1 :=
        { st.segment with
            metadata := st.segment.metadata ++ [(key, value)] }
      { st with segment := g1,
                trace := st.trace ++ [Event.putMeta key value] }

def KEY_TYPE_MSG : String := "key must be a string"

def SEARCHABLE_TYPE_MSG : String :=
  "searchable value must be a string, number or bool"

def NON_SEARCHABLE_TYPE_MSG : String :=
  "non-searchable value must be a dictionary"

/-- `__assert_type__(key, value, searchable)` from the source: key must
be a `str`; a searchable value must be `str`, `bool` or a number; a
non-searchable value must be a `dict`. -/
def assertType (key value : PyVal) (searchable : Bool) :
    Except PyErr Unit :=
  if key.isStr = false then .error (.valueError KEY_TYPE_MSG)
  else if searchable then
    if value.isSearchableType = false then
      .error (.valueError SEARCHABLE_TYPE_MSG)
    else .ok ()
  else
    if value.isDict = false then .error (.valueError NON_SEARCHABLE_TYPE_MSG)
    else .ok ()

/-- `record_data(key, value, searchable)` from the source: validate the
types, pick the innermost active scope, and write the pair as an
annotation (searchable) or metadata (non-searchable) there.  The backend
write call may raise, per the fault model; the state is returned
alongside the outcome because writes already performed persist. -/
def record_data (fl : Faults) (key value : PyVal) (searchable : Bool)
    (st : XrayState) : Except PyErr Unit × XrayState :=
  match assertType key value searchable with
  | .error e => (.error e, st)
  | .ok _ =>
    match key with
    | .pstr k =>
      if searchable then
        match fl.annotationFault k value with
        | some e => (.error e, st)
        | none => (.ok (), putAnnotationInnermost k value st)
      else
        match fl.metadataFault k value with
        | some e => (.error e, st)
        | none => (.ok (), putMetadataInnermost k value st)
    | _ => (.error (.valueError KEY_TYPE_MSG), st)

/-- The loop body of `__record_data__`: `for key, value in data.items():
record_data(key, value, searchable)`, stopping at the first raise. -/
def recordEntries (fl : Faults) :
    List (PyVal × PyVal) → Bool → XrayState → Except PyErr Unit × XrayState
  | [], _, st => (.ok (), st)
  | (k, v) :: rest, searchable, st =>
    match record_data fl k v searchable st with
    | (.ok _, st1) => recordEntries fl rest searchable st1
    | (.error e, st1) => (.error e, st1)

/-- `__record_data__(data, searchable)` from the source: a `None` dict is
skipped, otherwise each entry is written in iteration order. -/
def recordDataAll (fl : Faults) (data : Option (List (PyVal × PyVal)))
    (searchable : Bool) (st : XrayState) : Except PyErr Unit × XrayState :=
  match data with
  | none => (.ok (), st)
  | some entries => recordEntries fl entries searchable st

/-- `__record_error__(error)` from the source: write the searchable
marker `instrumentation_error = True` and the non-searchable detail
`instrumentation_error_detail = dict(message = repr(error))`. -/
def recordError (fl : Faults) (error : PyErr) (st : XrayState) :
    Except PyErr Unit × XrayState :=
  match record_data fl (.pstr "instrumentation_error") (.pbool true) true st with
  | (.error e, st1) => (.error e, st1)
  | (.ok _, st1) =>
      record_data fl (.pstr "instrumentation_error_detail")
        (.pdict [(.pstr "message", .pstr error.reprStr)]) false st1

/-- The wrapped unit of work, taking positional and keyword arguments. -/
abbrev PyFun := List PyVal → Kwargs → Except PyErr PyVal

/-- The caller-supplied recorder function `recorder(result, options)`. -/
abbrev Extractor := PyVal → Kwargs → Except PyErr Extracted

/-- The `try` body of `wrapper` after the optional `begin_subsegment`:
run `f(*arg, **kwargs)`, then, if a recorder was given, call
`recorder(result, kwargs)` and, if the result is a `Record`, write both
halves; return `result`.  The first component is the outcome of the
body (`.error` = an exception flew out of the `try` block); the state is
returned in all cases since effects already performed persist. -/
def tryBody (fl : Faults) (recorder : Option Extractor) (f : PyFun)
    (arg : List PyVal) (kwargs : Kwargs) (st : XrayState) :
    Except PyErr PyVal × XrayState :=
  let st0 := logEvent (.callF arg kwargs) st
  match f arg kwargs with
  | .error e => (.error e, st0)
  | .ok result =>
    match recorder with
    | none => (.ok result, st0)
    | some rcd =>
      let st1 := logEvent (.callExtractor result kwargs) st0
      match rcd result kwargs with
      | .error e => (.error e, st1)
      | .ok data =>
        match data with
        | .other _ => (.ok result, st1)
        | .record r =>
          match recordDataAll fl r.searchable true st1 with
          | (.error e, st2) => (.error e, st2)
          | (.ok _, st2) =>
            match recordDataAll fl r.non_searchable false st2 with
            | (.error e, st3) => (.error e, st3)
            | (.ok _, st3) => (.ok result, st3)

/-- `if subsegment is not None: xray_recorder.begin_subsegment(subsegment)`.
The SDK call is modelled as total, so hoisting it out of the `try` block
is behaviour-preserving. -/
def openScope (subsegment : Option String) (st : XrayState) : XrayState :=
  match subsegment with
  | some name => beginSubsegment name st
  | none => st

/-- The `finally` clause: `if subsegment is not None:
xray_recorder.end_subsegment()`. -/
def closeScope (subsegment : Option String) (st : XrayState) : XrayState :=
  match subsegment with
  | some _ => endSubsegment st
  | none => st

/-- The `wrapper` closure produced by the `record` decorator.  The first
component is what the caller observes: `.ok (some v)` — normal return of
`v`; `.ok none` — the contained-error path returned `None`; `.error e` —
an exception escaped to the caller (possible only when the error
recording in the `except` clause itself raises; the `finally` clause
still runs first). -/
def wrapper (fl : Faults) (recorder : Option Extractor)
    (subsegment : Option String) (f : PyFun) (arg : List PyVal)
    (kwargs : Kwargs) (st : XrayState) :
    Except PyErr (Option PyVal) × XrayState :=
  match tryBody fl recorder f arg kwargs (openScope subsegment st) with
  | (.ok v, st1) => (.ok (some v), closeScope subsegment st1)
  | (.error e, st1) =>
    match recordError fl e st1 with
    | (.ok _, st2) => (.ok none, closeScope subsegment st2)
    | (.error e2, st2) => (.error e2, closeScope subsegment st2)

/-- `record(recorder, subsegment)` applied to `f`: the decorator
produces the wrapped call. -/
def record (fl : Faults) (recorder : Option Extractor)
    (subsegment : Option String) (f : PyFun) :
    List PyVal → Kwargs → XrayState →
      Except PyErr (Option PyVal) × XrayState :=
  fun arg kwargs st => wrapper fl recorder subsegment f arg kwargs st

/-- Whether a wrapped call raised to its caller. -/
def escapes (r : Except PyErr (Option PyVal)) : Bool :=
  match r with
  | .error _ => true
  | .ok _ => false

/-- A fault model in which the backend raises on the annotation write of
the error marker key itself. -/
def markerFaults : Faults :=
  { annotationFault := fun k _ =>
      if k = "instrumentation_error" then
        some (.exception "annotation backend failure")
      else none,
    metadataFault := fun _ _ => none }

/-- The observable events appended by one wrapped call, run from `st`. -/
def wrapperEvents (fl : Faults) (recorder : Option Extractor)
    (subsegment : Option String) (f : PyFun) (arg : List PyVal)
    (kwargs : Kwargs) (st : XrayState) : List Event :=
  (wrapper fl recorder subsegment f arg kwargs st).2.trace.drop
    st.trace.length

/-- A wrapped function that ignores its arguments and returns `None`. -/
def fOk : PyFun := fun _ _ => .ok .pnone

/-- A wrapped function that ignores its arguments and returns `"r"`. -/
def fConst : PyFun := fun _ _ => .ok (.pstr "r")

/-- A recorder returning a non-Record value. -/
def constExtractor : Extractor := fun _ _ => .ok (.other .pnone)

/-- A recorder returning a Record with only the searchable half. -/
def annOnlyExtractor : Extractor := fun _ _ =>
  .ok (.record { searchable := some [(.pstr "a", .pint 1)],
                 non_searchable := none })

/-- A recorder returning a Record with only the non-searchable half. -/
def metaOnlyExtractor : Extractor := fun _ _ =>
  .ok (.record { searchable := none,
                 non_searchable := some [(.pstr "m", .pdict [])] })

/-- A recorder returning a Record whose searchable half has a valid entry
iterated before an entry whose value has an invalid type for a
searchable write. -/
def partialRecordExtractor : Extractor := fun _ _ =>
  .ok (.record
    { searchable := some [(.pstr "a", .pint 1), (.pstr "b", .pdict [])],
      non_searchable := none })

/-! ### Basic trace lemmas -/

@[simp] lemma logEvent_trace (e : Event) (st : XrayState) :
    (logEvent e st).trace = st.trace ++ [e] := rfl

@[simp] lemma beginSubsegment_trace (n : String) (st : XrayState) :
    (beginSubsegment n st).trace = st.trace ++ [Event.beginSub n] := rfl

@[simp] lemma endSubsegment_trace (st : XrayState) :
    (endSubsegment st).trace = st.trace ++ [Event.endSub] := by
  unfold endSubsegment
  cases st.subsegments <;> rfl

@[simp] lemma putAnnotationInnermost_trace (k : String) (v : PyVal)
    (st : XrayState) :
    (putAnnotationInnermost k v st).trace = st.trace ++ [Event.putAnn k v] := by
  unfold putAnnotationInnermost
  cases st.subsegments <;> rfl

@[simp] lemma putMetadataInnermost_trace (k : String) (v : PyVal)
    (st : XrayState) :
    (putMetadataInnermost k v st).trace = st.trace ++ [Event.putMeta k v] := by
  unfold putMetadataInnermost
  cases st.subsegments <;> rfl

lemma record_data_trace_delta (fl : Faults) (key value : PyVal)
    (searchable : Bool) (st : XrayState) :
    ∃ δ, (record_data fl key value searchable st).2.trace = st.trace ++ δ ∧
      ∀ e ∈ δ, e.isWrite = true := by
  unfold record_data
  cases h : assertType key value searchable with
  | error e => exact ⟨[], by simp⟩
  | ok u =>
    cases key with
    | pstr k =>
      by_cases hs : searchable
      · simp only [hs, if_true]
        cases hf : fl.annotationFault k value with
        | some e => exact ⟨[], by simp⟩
        | none => exact ⟨[Event.putAnn k value], by simp [Event.isWrite]⟩
      · simp only [hs, if_false]
        cases hf : fl.metadataFault k value with
        | some e => exact ⟨[], by simp⟩
        | none => exact ⟨[Event.putMeta k value], by simp [Event.isWrite]⟩
    | pbool b => exact ⟨[], by simp⟩
    | pint n => exact ⟨[], by simp⟩
    | pfloat q => exact ⟨[], by simp⟩
    | pdict d => exact ⟨[], by simp⟩
    | pnone => exact ⟨[], by simp⟩

lemma recordEntries_trace_delta (fl : Faults) (entries : List (PyVal × PyVal))
    (searchable : Bool) :
    ∀ st : XrayState,
      ∃ δ, (recordEntries fl entries searchable st).2.trace = st.trace ++ δ ∧
        ∀ e ∈ δ, e.isWrite = true := by
  induction entries with
  | nil => intro st; exact ⟨[], by simp [recordEntries]⟩
  | cons p rest ih =>
    intro st
    obtain ⟨k, v⟩ := p
    obtain ⟨δ1, h1, hw1⟩ := record_data_trace_delta fl k v searchable st
    cases hrd : record_data fl k v searchable st with
    | mk r st1 =>
      rw [hrd] at h1
      have h1' : st1.trace = st.trace ++ δ1 := h1
      cases r with
      | error e =>
        refine ⟨δ1, ?_, hw1⟩
        simp only [recordEntries, hrd]
        exact h1'
      | ok u =>
        obtain ⟨δ2, h2, hw2⟩ := ih st1
        refine ⟨δ1 ++ δ2, ?_, ?_⟩
        · simp only [recordEntries, hrd]
          rw [h2, h1', List.append_assoc]
        · intro e he
          rcases List.mem_append.mp he with h | h
          · exact hw1 e h
          · exact hw2 e h

lemma recordDataAll_trace_delta (fl : Faults)
    (data : Option (List (PyVal × PyVal))) (searchable : Bool)
    (st : XrayState) :
    ∃ δ, (recordDataAll fl data searchable st).2.trace = st.trace ++ δ ∧
      ∀ e ∈ δ, e.isWrite = true := by
  cases data with
  | none => exact ⟨[], by simp [recordDataAll]⟩
  | some entries =>
    obtain ⟨δ, h, hw⟩ := recordEntries_trace_delta fl entries searchable st
    exact ⟨δ, by simpa [recordDataAll] using h, hw⟩

lemma recordError_trace_delta (fl : Faults) (err : PyErr) (st : XrayState) :
    ∃ δ, (recordError fl err st).2.trace = st.trace ++ δ ∧
      ∀ e ∈ δ, e.isWrite = true := by
  unfold recordError
  obtain ⟨δ1, h1, hw1⟩ :=
    record_data_trace_delta fl (.pstr "instrumentation_error") (.pbool true)
      true st
  cases hrd : record_data fl (.pstr "instrumentation_error") (.pbool true)
      true st with
  | mk r st1 =>
    rw [hrd] at h1
    have h1' : st1.trace = st.trace ++ δ1 := h1
    cases r with
    | error e => exact ⟨δ1, h1', hw1⟩
    | ok u =>
      obtain ⟨δ2, h2, hw2⟩ :=
        record_data_trace_delta fl (.pstr "instrumentation_error_detail")
          (.pdict [(.pstr "message", .pstr err.reprStr)]) false st1
      refine ⟨δ1 ++ δ2, ?_, ?_⟩
      · rw [h2, h1', List.append_assoc]
      · intro e he
        rcases List.mem_append.mp he with h | h
        · exact hw1 e h
        · exact hw2 e h

/-! ### Equation lemmas for the try body -/

lemma tryBody_f_err (fl : Faults) (recorder : Option Extractor) (f : PyFun)
    (arg : List PyVal) (kwargs : Kwargs) (st : XrayState) (e : PyErr)
    (hf : f arg kwargs = .error e) :
    tryBody fl recorder f arg kwargs st =
      (.error e, logEvent (.callF arg kwargs) st) := by
  unfold tryBody
  rw [hf]

lemma tryBody_ok_noRecorder (fl : Faults) (f : PyFun) (arg : List PyVal)
    (kwargs : Kwargs) (st : XrayState) (v : PyVal)
    (hf : f arg kwargs = .ok v) :
    tryBody fl none f arg kwargs st =
      (.ok v, logEvent (.callF arg kwargs) st) := by
  unfold tryBody
  rw [hf]

lemma tryBody_ok_extractor_err (fl : Faults) (rcd : Extractor) (f : PyFun)
    (arg : List PyVal) (kwargs : Kwargs) (st : XrayState) (v : PyVal)
    (e : PyErr) (hf : f arg kwargs = .ok v)
    (hr : rcd v kwargs = .error e) :
    tryBody fl (some rcd) f arg kwargs st =
      (.error e,
        logEvent (.callExtractor v kwargs) (logEvent (.callF arg kwargs) st)) := by
  unfold tryBody
  rw [hf]
  simp only [hr]

lemma tryBody_ok_extractor_other (fl : Faults) (rcd : Extractor) (f : PyFun)
    (arg : List PyVal) (kwargs : Kwargs) (st : XrayState) (v w : PyVal)
    (hf : f arg kwargs = .ok v) (hr : rcd v kwargs = .ok (.other w)) :
    tryBody fl (some rcd) f arg kwargs st =
      (.ok v,
        logEvent (.callExtractor v kwargs) (logEvent (.callF arg kwargs) st)) := by
  unfold tryBody
  rw [hf]
  simp only [hr]

lemma tryBody_ok_extractor_record (fl : Faults) (rcd : Extractor) (f : PyFun)
    (arg : List PyVal) (kwargs : Kwargs) (st : XrayState) (v : PyVal)
    (r : Record) (hf : f arg kwargs = .ok v)
    (hr : rcd v kwargs = .ok (.record r)) :
    tryBody fl (some rcd) f arg kwargs st =
      (let st1 :=
        logEvent (.callExtractor v kwargs) (logEvent (.callF arg kwargs) st)
      match recordDataAll fl r.searchable true st1 with
      | (.error e, st2) => (.error e, st2)
      | (.ok _, st2) =>
        match recordDataAll fl r.non_searchable false st2 with
        | (.error e, st3) => (.error e, st3)
        | (.ok _, st3) => (.ok v, st3)) := by
  unfold tryBody
  rw [hf]
  simp only [hr]

lemma tryBody_trace_delta (fl : Faults) (recorder : Option Extractor)
    (f : PyFun) (arg : List PyVal) (kwargs : Kwargs) (st : XrayState) :
    ∃ δ, (tryBody fl recorder f arg kwargs st).2.trace
        = st.trace ++ (Event.callF arg kwargs :: δ) ∧
      ∀ e ∈ δ, (e.isWrite || e.isCallExtractor) = true := by
  cases hf : f arg kwargs with
  | error e =>
    rw [tryBody_f_err fl recorder f arg kwargs st e hf]
    exact ⟨[], by simp [logEvent], by simp⟩
  | ok result =>
    cases recorder with
    | none =>
      rw [tryBody_ok_noRecorder fl f arg kwargs st result hf]
      exact ⟨[], by simp [logEvent], by simp⟩
    | some rcd =>
      cases hr : rcd result kwargs with
      | error e =>
        rw [tryBody_ok_extractor_err fl rcd f arg kwargs st result e hf hr]
        refine ⟨[Event.callExtractor result kwargs], by simp [logEvent], ?_⟩
        simp [Event.isCallExtractor]
      | ok data =>
        cases data with
        | other w =>
          rw [tryBody_ok_extractor_other fl rcd f arg kwargs st result w hf hr]
          refine ⟨[Event.callExtractor result kwargs], by simp [logEvent], ?_⟩
          simp [Event.isCallExtractor]
        | record r =>
          rw [tryBody_ok_extractor_record fl rcd f arg kwargs st result r hf hr]
          obtain ⟨δ1, h1, hw1⟩ :=
            recordDataAll_trace_delta fl r.searchable true
              (logEvent (.callExtractor result kwargs)
                (logEvent (.callF arg kwargs) st))
          cases hrd1 : recordDataAll fl r.searchable true
              (logEvent (.callExtractor result kwargs)
                (logEvent (.callF arg kwargs) st)) with
          | mk r1 st2 =>
            rw [hrd1] at h1
            have h1' : st2.trace
                = st.trace ++ [Event.callF arg kwargs,
                    Event.callExtractor result kwargs] ++ δ1 := by
              simpa [logEvent] using h1
            cases r1 with
            | error e =>
              refine ⟨Event.callExtractor result kwargs :: δ1, ?_, ?_⟩
              · simp only [hrd1]
                rw [h1']
                simp
              · intro e he
                rcases List.mem_cons.mp he with h | h
                · simp [h, Event.isCallExtractor]
                · simp [hw1 e h]
            | ok u =>
              obtain ⟨δ2, h2, hw2⟩ :=
                recordDataAll_trace_delta fl r.non_searchable false st2
              cases hrd2 : recordDataAll fl r.non_searchable false st2 with
              | mk r2 st3 =>
                rw [hrd2] at h2
                have h2' : st3.trace = st2.trace ++ δ2 := h2
                refine ⟨Event.callExtractor result kwargs :: (δ1 ++ δ2),
                  ?_, ?_⟩
                · simp only [hrd1, hrd2]
                  cases r2 with
                  | error e =>
                    rw [h2', h1']
                    simp
                  | ok u2 =>
                    rw [h2', h1']
                    simp
                · intro e he
                  rcases List.mem_cons.mp he with h | h
                  · simp [h, Event.isCallExtractor]
                  · rcases List.mem_append.mp h with h | h
                    · simp [hw1 e h]
                    · simp [hw2 e h]

/-! ### Success-path lemmas -/

lemma record_data_ok_ann (k : String) (value : PyVal) (st : XrayState)
    (hv : value.isSearchableType = true) :
    record_data noFaults (.pstr k) value true st
      = (.ok (), putAnnotationInnermost k value st) := by
  simp [record_data, assertType, PyVal.isStr, hv, noFaults]

lemma record_data_ok_meta (k : String) (value : PyVal) (st : XrayState)
    (hv : value.isDict = true) :
    record_data noFaults (.pstr k) value false st
      = (.ok (), putMetadataInnermost k value st) := by
  simp [record_data, assertType, PyVal.isStr, hv, noFaults]

lemma recordError_ok (fl : Faults) (err : PyErr) (st : XrayState)
    (h1 : fl.annotationFault "instrumentation_error" (.pbool true) = none)
    (h2 : ∀ v, fl.metadataFault "instrumentation_error_detail" v = none) :
    recordError fl err st =
      (.ok (), putMetadataInnermost "instrumentation_error_detail"
        (.pdict [(.pstr "message", .pstr err.reprStr)])
        (putAnnotationInnermost "instrumentation_error" (.pbool true) st)) := by
  simp [recordError, record_data, assertType, PyVal.isStr,
    PyVal.isSearchableType, PyVal.isDict, h1, h2]

lemma recordEntries_ok (searchable : Bool) (entries : List (String × PyVal)) :
    ∀ st : XrayState,
      (∀ p ∈ entries,
        (if searchable then p.2.isSearchableType else p.2.isDict) = true) →
      ∃ st1,
        recordEntries noFaults (entries.map (fun p => (PyVal.pstr p.1, p.2)))
          searchable st = (.ok (), st1) ∧
        st1.trace = st.trace ++ entries.map (fun p =>
          if searchable then Event.putAnn p.1 p.2 else Event.putMeta p.1 p.2) := by
  induction entries with
  | nil => intro st hval; exact ⟨st, by simp [recordEntries], by simp⟩
  | cons p rest ih =>
    intro st hval
    obtain ⟨k, v⟩ := p
    have hv := hval (k, v) (List.mem_cons_self _ _)
    cases searchable with
    | true =>
      have hrd := record_data_ok_ann k v st (by simpa using hv)
      obtain ⟨st1, hst1, htr⟩ :=
        ih (putAnnotationInnermost k v st)
          (fun q hq => hval q (List.mem_cons_of_mem _ hq))
      refine ⟨st1, ?_, ?_⟩
      · simp only [List.map_cons, recordEntries, hrd]
        exact hst1
      · rw [htr]
        simp
    | false =>
      have hrd := record_data_ok_meta k v st (by simpa using hv)
      obtain ⟨st1, hst1, htr⟩ :=
        ih (putMetadataInnermost k v st)
          (fun q hq => hval q (List.mem_cons_of_mem _ hq))
      refine ⟨st1, ?_, ?_⟩
      · simp only [List.map_cons, recordEntries, hrd]
        exact hst1
      · rw [htr]
        simp

/-! ### Claim theorems -/

/-- C5: `record_data` validates before writing and raises exactly when the
types are wrong: a non-string key raises the key-type error; with a string
key and `searchable = true` it succeeds exactly for string, boolean or
numeric values and otherwise raises the searchable-type error; with
`searchable = false` it succeeds exactly for a dict value and otherwise
raises the non-searchable-type error.  On a raise the state is unchanged
(validated before writing). -/
theorem record_data_validates (key value : PyVal) (searchable : Bool)
    (st : XrayState) :
    (key.isStr = false →
      record_data noFaults key value searchable st
        = (.error (.valueError KEY_TYPE_MSG), st))
  ∧ (key.isStr = true → searchable = true → value.isSearchableType = false →
      record_data noFaults key value searchable st
        = (.error (.valueError SEARCHABLE_TYPE_MSG), st))
  ∧ (key.isStr = true → searchable = false → value.isDict = false →
      record_data noFaults key value searchable st
        = (.error (.valueError NON_SEARCHABLE_TYPE_MSG), st))
  ∧ ((record_data noFaults key value searchable st).1 = .ok () ↔
      key.isStr = true ∧
        (if searchable then value.isSearchableType else value.isDict) = true) := by
  cases key <;> cases value <;> cases searchable <;>
    simp [record_data, assertType, noFaults, PyVal.isStr,
      PyVal.isSearchableType, PyVal.isDict]

/-- Witness for C5 at the concrete inputs named by the spec:
`record_data("k", 3.14, True)` succeeds; `record_data(123, "x", True)`
raises the key-type error; `record_data("k", dict(), True)` raises the
searchable-type error; `record_data("k", "x", False)` raises the
non-searchable-type error. -/
theorem record_data_validates_witness :
    (record_data noFaults (.pstr "k") (.pfloat 3.14) true initState).1
        = .ok ()
  ∧ record_data noFaults (.pint 123) (.pstr "x") true initState
      = (.error (.valueError KEY_TYPE_MSG), initState)
  ∧ record_data noFaults (.pstr "k") (.pdict []) true initState
      = (.error (.valueError SEARCHABLE_TYPE_MSG), initState)
  ∧ record_data noFaults (.pstr "k") (.pstr "x") false initState
      = (.error (.valueError NON_SEARCHABLE_TYPE_MSG), initState) := by
  refine ⟨?_, ?_, ?_, ?_⟩
  · exact (record_data_validates (.pstr "k") (.pfloat 3.14) true
      initState).2.2.2.mpr ⟨rfl, rfl⟩
  · exact (record_data_validates (.pint 123) (.pstr "x") true initState).1 rfl
  · exact (record_data_validates (.pstr "k") (.pdict []) true
      initState).2.1 rfl rfl rfl
  · exact (record_data_validates (.pstr "k") (.pstr "x") false
      initState).2.2.1 rfl rfl rfl

/-- C4: every `record_data` write targets the innermost active scope: if a
subsegment is active the annotation or metadata goes to that subsegment
(the segment and the outer subsegments are untouched); if no subsegment is
active it goes to the current segment (the subsegment stack stays empty). -/
theorem record_data_targets_innermost (k : String) (value : PyVal)
    (searchable : Bool) (st : XrayState)
    (hv : (if searchable then value.isSearchableType else value.isDict)
      = true) :
    (∀ s rest, st.subsegments = s :: rest →
      (record_data noFaults (.pstr k) value searchable st).2.segment
          = st.segment ∧
      (record_data noFaults (.pstr k) value searchable st).2.subsegments
        = ((if searchable then
              { s with annotations := s.annotations ++ [(k, value)] }
            else { s with metadata := s.metadata ++ [(k, value)] }) :: rest))
  ∧ (st.subsegments = [] →
      (record_data noFaults (.pstr k) value searchable st).2.subsegments = []
      ∧ (record_data noFaults (.pstr k) value searchable st).2.segment
        = (if searchable then
            { st.segment with
                annotations := st.segment.annotations ++ [(k, value)] }
          else
            { st.segment with
                metadata := st.segment.metadata ++ [(k, value)] })) := by
  cases searchable with
  | true =>
    rw [record_data_ok_ann k value st (by simpa using hv)]
    constructor
    · intro s rest hs
      unfold putAnnotationInnermost
      rw [hs]
      simp
    · intro hs
      unfold putAnnotationInnermost
      rw [hs]
      simp
  | false =>
    rw [record_data_ok_meta k value st (by simpa using hv)]
    constructor
    · intro s rest hs
      unfold putMetadataInnermost
      rw [hs]
      simp
    · intro hs
      unfold putMetadataInnermost
      rw [hs]
      simp

/-- Witness for C4: with a subsegment `"ss"` active, a searchable write of
`("k", 1)` lands in the subsegment and the segment is untouched; in the
fresh state with no subsegment, it lands in the segment. -/
theorem record_data_targets_innermost_witness :
    ((record_data noFaults (.pstr "k") (.pint 1) true
        (beginSubsegment "ss" initState)).2.segment = initState.segment
      ∧ (record_data noFaults (.pstr "k") (.pint 1) true
          (beginSubsegment "ss" initState)).2.subsegments
        = [{ name := "ss", annotations := [("k", PyVal.pint 1)],
             metadata := [] }])
  ∧ ((record_data noFaults (.pstr "k") (.pint 1) true initState).2.subsegments
        = []
    ∧ (record_data noFaults (.pstr "k") (.pint 1) true initState).2.segment
        = { name := "segment", annotations := [("k", PyVal.pint 1)],
            metadata := [] }) := by
  constructor
  · have h := (record_data_targets_innermost "k" (.pint 1) true
      (beginSubsegment "ss" initState) rfl).1
      { name := "ss" } [] rfl
    exact ⟨h.1, by rw [h.2]; rfl⟩
  · have h := (record_data_targets_innermost "k" (.pint 1) true
      initState rfl).2 rfl
    exact ⟨h.1, by rw [h.2]; rfl⟩

/-! ### Equation lemmas for the wrapper -/

lemma wrapper_of_tryBody_ok (fl : Faults) (recorder : Option Extractor)
    (subsegment : Option String) (f : PyFun) (arg : List PyVal)
    (kwargs : Kwargs) (st st1 : XrayState) (v : PyVal)
    (htb : tryBody fl recorder f arg kwargs (openScope subsegment st)
      = (.ok v, st1)) :
    wrapper fl recorder subsegment f arg kwargs st
      = (.ok (some v), closeScope subsegment st1) := by
  unfold wrapper
  rw [htb]

lemma wrapper_of_tryBody_err_ok (fl : Faults) (recorder : Option Extractor)
    (subsegment : Option String) (f : PyFun) (arg : List PyVal)
    (kwargs : Kwargs) (st st1 st2 : XrayState) (e : PyErr) (u : Unit)
    (htb : tryBody fl recorder f arg kwargs (openScope subsegment st)
      = (.error e, st1))
    (hre : recordError fl e st1 = (.ok u, st2)) :
    wrapper fl recorder subsegment f arg kwargs st
      = (.ok none, closeScope subsegment st2) := by
  unfold wrapper
  rw [htb]
  simp only [hre]

lemma wrapper_of_tryBody_err_err (fl : Faults) (recorder : Option Extractor)
    (subsegment : Option String) (f : PyFun) (arg : List PyVal)
    (kwargs : Kwargs) (st st1 st2 : XrayState) (e e2 : PyErr)
    (htb : tryBody fl recorder f arg kwargs (openScope subsegment st)
      = (.error e, st1))
    (hre : recordError fl e st1 = (.error e2, st2)) :
    wrapper fl recorder subsegment f arg kwargs st
      = (.error e2, closeScope subsegment st2) := by
  unfold wrapper
  rw [htb]
  simp only [hre]

lemma isScope_false_of_write (e : Event) (h : e.isWrite = true) :
    e.isScope = false := by
  cases e <;> simp_all [Event.isWrite, Event.isScope]

lemma isScope_false_of_body (e : Event)
    (h : (e.isWrite || e.isCallExtractor) = true) : e.isScope = false := by
  cases e <;> simp_all [Event.isWrite, Event.isCallExtractor, Event.isScope]

/-- C1: whenever the try body of a wrapped call (running `f`, invoking the
recorder, or issuing the data writes) raises, the wrapper does not
propagate the exception: it writes the indexed marker
`instrumentation_error = True` and the structured detail
`instrumentation_error_detail = dict(message = repr(error))` to the
current innermost scope, and the caller gets `None` rather than `f`'s
result or the exception.  (The error-recording writes themselves are
assumed not to fault; when they do, claim C3's correction applies.) -/
theorem wrapper_contains_errors (fl : Faults) (recorder : Option Extractor)
    (subsegment : Option String) (f : PyFun) (arg : List PyVal)
    (kwargs : Kwargs) (st : XrayState) (e : PyErr)
    (h1 : fl.annotationFault "instrumentation_error" (.pbool true) = none)
    (h2 : ∀ v, fl.metadataFault "instrumentation_error_detail" v = none)
    (herr : (tryBody fl recorder f arg kwargs (openScope subsegment st)).1
      = .error e) :
    wrapper fl recorder subsegment f arg kwargs st
      = (.ok none,
          closeScope subsegment
            (putMetadataInnermost "instrumentation_error_detail"
              (.pdict [(.pstr "message", .pstr e.reprStr)])
              (putAnnotationInnermost "instrumentation_error" (.pbool true)
                (tryBody fl recorder f arg kwargs
                  (openScope subsegment st)).2))) := by
  cases htb : tryBody fl recorder f arg kwargs (openScope subsegment st) with
  | mk r st1 =>
    rw [htb] at herr
    have hr : r = Except.error e := herr
    subst hr
    rw [wrapper_of_tryBody_err_ok fl recorder subsegment f arg kwargs st st1 _
      e () htb (recordError_ok fl e st1 h1 h2)]

/-- Witness for C1: a wrapped call (no subsegment, no recorder) whose
wrapped function raises lands on the containment path: the caller gets
`None` and the marker annotation and the detail metadata are on the
segment. -/
theorem wrapper_contains_errors_witness :
    wrapper noFaults none none (fun _ _ => .error (.exception "boom")) [] []
        initState
      = (.ok none,
          putMetadataInnermost "instrumentation_error_detail"
            (.pdict [(.pstr "message", .pstr "boom")])
            (putAnnotationInnermost "instrumentation_error" (.pbool true)
              (logEvent (.callF [] []) initState))) := by
  have h := wrapper_contains_errors noFaults none none
    (fun _ _ => .error (.exception "boom")) [] [] initState
    (.exception "boom") rfl (fun _ => rfl) rfl
  rw [h]
  rfl

/-- C2: when the decorator is given a subsegment name, the wrapped call
opens the named scope before invoking `f` and closes it exactly once
afterwards, on every exit path (the events appended by the call are
exactly one `beginSub` first, one `endSub` last, and no scope events in
between, with `f`'s invocation in between); when no name is given, no
scope is opened or closed. -/
theorem wrapper_scope_discipline (fl : Faults) (recorder : Option Extractor)
    (f : PyFun) (arg : List PyVal) (kwargs : Kwargs) (st : XrayState)
    (n : String) :
    (∃ mid, (wrapper fl recorder (some n) f arg kwargs st).2.trace
        = st.trace ++ (Event.beginSub n :: (mid ++ [Event.endSub]))
      ∧ (∀ e ∈ mid, e.isScope = false)
      ∧ Event.callF arg kwargs ∈ mid)
  ∧ (∃ δ, (wrapper fl recorder none f arg kwargs st).2.trace = st.trace ++ δ
      ∧ ∀ e ∈ δ, e.isScope = false) := by
  constructor
  · obtain ⟨δ, htr, hδ⟩ :=
      tryBody_trace_delta fl recorder f arg kwargs (openScope (some n) st)
    cases htb : tryBody fl recorder f arg kwargs (openScope (some n) st) with
    | mk r st1 =>
      rw [htb] at htr
      have htr1 : st1.trace = st.trace
          ++ ([Event.beginSub n] ++ (Event.callF arg kwargs :: δ)) := by
        simpa [openScope, beginSubsegment, List.append_assoc] using htr
      cases r with
      | ok v =>
        rw [wrapper_of_tryBody_ok fl recorder (some n) f arg kwargs st st1 v
          htb]
        refine ⟨Event.callF arg kwargs :: δ, ?_, ?_, List.mem_cons_self _ _⟩
        · simp [closeScope, htr1]
        · intro e he
          rcases List.mem_cons.mp he with h | h
          · simp [h, Event.isScope]
          · exact isScope_false_of_body e (hδ e h)
      | error e =>
        obtain ⟨δ2, htr2, hδ2⟩ := recordError_trace_delta fl e st1
        cases hre : recordError fl e st1 with
        | mk r2 st2 =>
          rw [hre] at htr2
          have htr2' : st2.trace = st1.trace ++ δ2 := htr2
          refine ⟨Event.callF arg kwargs :: (δ ++ δ2), ?_, ?_,
            List.mem_cons_self _ _⟩
          · cases r2 with
            | ok u =>
              rw [wrapper_of_tryBody_err_ok fl recorder (some n) f arg kwargs
                st st1 st2 e u htb hre]
              simp [closeScope, htr2', htr1]
            | error e2 =>
              rw [wrapper_of_tryBody_err_err fl recorder (some n) f arg kwargs
                st st1 st2 e e2 htb hre]
              simp [closeScope, htr2', htr1]
          · intro ev hev
            rcases List.mem_cons.mp hev with h | h
            · simp [h, Event.isScope]
            · rcases List.mem_append.mp h with h | h
              · exact isScope_false_of_body ev (hδ ev h)
              · exact isScope_false_of_write ev (hδ2 ev h)
  · obtain ⟨δ, htr, hδ⟩ :=
      tryBody_trace_delta fl recorder f arg kwargs (openScope none st)
    cases htb : tryBody fl recorder f arg kwargs (openScope none st) with
    | mk r st1 =>
      rw [htb] at htr
      have htr1 : st1.trace = st.trace ++ (Event.callF arg kwargs :: δ) := by
        simpa [openScope] using htr
      cases r with
      | ok v =>
        rw [wrapper_of_tryBody_ok fl recorder none f arg kwargs st st1 v htb]
        refine ⟨Event.callF arg kwargs :: δ, by simp [closeScope, htr1], ?_⟩
        intro e he
        rcases List.mem_cons.mp he with h | h
        · simp [h, Event.isScope]
        · exact isScope_false_of_body e (hδ e h)
      | error e =>
        obtain ⟨δ2, htr2, hδ2⟩ := recordError_trace_delta fl e st1
        cases hre : recordError fl e st1 with
        | mk r2 st2 =>
          rw [hre] at htr2
          have htr2' : st2.trace = st1.trace ++ δ2 := htr2
          refine ⟨Event.callF arg kwargs :: (δ ++ δ2), ?_, ?_⟩
          · cases r2 with
            | ok u =>
              rw [wrapper_of_tryBody_err_ok fl recorder none f arg kwargs
                st st1 st2 e u htb hre]
              simp [closeScope, htr2', htr1]
            | error e2 =>
              rw [wrapper_of_tryBody_err_err fl recorder none f arg kwargs
                st st1 st2 e e2 htb hre]
              simp [closeScope, htr2', htr1]
          · intro ev hev
            rcases List.mem_cons.mp hev with h | h
            · simp [h, Event.isScope]
            · rcases List.mem_append.mp h with h | h
              · exact isScope_false_of_body ev (hδ ev h)
              · exact isScope_false_of_write ev (hδ2 ev h)

/-- C3 counterexample: with a backend whose annotation write raises on
the error-marker key, a wrapped call whose wrapped function raises
propagates the backend exception to the caller — the combination
(error in `f`, error in the error-marker write) escapes the decorator,
refuting the claim that no combination of recording errors escapes. -/
theorem wrapper_error_escapes_counterexample :
    escapes (wrapper markerFaults none none
      (fun _ _ => .error (.exception "work failed")) [] [] initState).1 = true
  ∧ (wrapper markerFaults none none
      (fun _ _ => .error (.exception "work failed")) [] [] initState).1
    = .error (.exception "annotation backend failure") := by
  exact ⟨rfl, rfl⟩

/-- C3 (amended): no exception escapes a wrapped call to its caller —
whatever the wrapped function, the recorder, and the data-write faults
do — provided the two error-recording writes themselves (the marker
annotation and the detail metadata) do not raise.  (The scope open/close
calls are modelled as non-raising.) -/
theorem wrapper_never_raises (fl : Faults) (recorder : Option Extractor)
    (subsegment : Option String) (f : PyFun) (arg : List PyVal)
    (kwargs : Kwargs) (st : XrayState)
    (h1 : fl.annotationFault "instrumentation_error" (.pbool true) = none)
    (h2 : ∀ v, fl.metadataFault "instrumentation_error_detail" v = none) :
    escapes (wrapper fl recorder subsegment f arg kwargs st).1 = false := by
  cases htb : tryBody fl recorder f arg kwargs (openScope subsegment st) with
  | mk r st1 =>
    cases r with
    | ok v =>
      rw [wrapper_of_tryBody_ok fl recorder subsegment f arg kwargs st st1 v
        htb]
      rfl
    | error e =>
      rw [wrapper_of_tryBody_err_ok fl recorder subsegment f arg kwargs st
        st1 _ e () htb (recordError_ok fl e st1 h1 h2)]
      rfl

/-- Witness for the amended C3: under a fault-free backend, a wrapped
call with a named scope and a raising wrapped function does not raise to
its caller. -/
theorem wrapper_never_raises_witness :
    escapes (wrapper noFaults none (some "ss1")
      (fun _ _ => .error (.exception "boom")) [] [] initState).1 = false :=
  wrapper_never_raises noFaults none (some "ss1")
    (fun _ _ => .error (.exception "boom")) [] [] initState rfl (fun _ => rfl)

/-! ### Filter helpers -/

lemma filter_map_eq_self {α : Type} (g : α → Event) (p : Event → Bool)
    (h : ∀ a, p (g a) = true) (l : List α) :
    (l.map g).filter p = l.map g := by
  induction l with
  | nil => rfl
  | cons a rest ih => simp [List.filter_cons, h a, ih]

lemma filter_map_eq_nil {α : Type} (g : α → Event) (p : Event → Bool)
    (h : ∀ a, p (g a) = false) (l : List α) :
    (l.map g).filter p = [] := by
  induction l with
  | nil => rfl
  | cons a rest ih => simp [List.filter_cons, h a, ih]

@[simp] lemma openScope_trace (o : Option String) (st : XrayState) :
    (openScope o st).trace
      = st.trace ++ (match o with
        | some n => [Event.beginSub n]
        | none => []) := by
  cases o <;> simp [openScope]

@[simp] lemma closeScope_trace (o : Option String) (st : XrayState) :
    (closeScope o st).trace
      = st.trace ++ (match o with
        | some _ => [Event.endSub]
        | none => []) := by
  cases o <;> simp [closeScope]

/-- C6: for a Record in which only the searchable half is populated, a
wrapped call issues exactly one indexed (annotation) write per key, in
order, and no structured (metadata) writes; symmetrically, for a Record
in which only the non-searchable half is populated, it issues exactly
one structured write per key and no indexed writes.  (Fault-free backend,
values of the valid type for their half.) -/
theorem wrapper_record_halves (rcd : Extractor) (subsegment : Option String)
    (f : PyFun) (arg : List PyVal) (kwargs : Kwargs) (st : XrayState)
    (v : PyVal) (entries : List (String × PyVal))
    (hf : f arg kwargs = .ok v) :
    (rcd v kwargs = .ok (.record
        { searchable := some (entries.map fun p => (PyVal.pstr p.1, p.2)),
          non_searchable := none }) →
      (∀ p ∈ entries, p.2.isSearchableType = true) →
      (wrapperEvents noFaults (some rcd) subsegment f arg kwargs st).filter
          Event.isPutAnn
        = entries.map (fun p => Event.putAnn p.1 p.2)
      ∧ (wrapperEvents noFaults (some rcd) subsegment f arg kwargs st).filter
          Event.isPutMeta = [])
  ∧ (rcd v kwargs = .ok (.record
        { searchable := none,
          non_searchable := some (entries.map fun p => (PyVal.pstr p.1, p.2)) })
      → (∀ p ∈ entries, p.2.isDict = true) →
      (wrapperEvents noFaults (some rcd) subsegment f arg kwargs st).filter
          Event.isPutMeta
        = entries.map (fun p => Event.putMeta p.1 p.2)
      ∧ (wrapperEvents noFaults (some rcd) subsegment f arg kwargs st).filter
          Event.isPutAnn = []) := by
  constructor
  · intro hr hval
    cases subsegment with
    | none =>
      obtain ⟨stA, hA, hAtr⟩ := recordEntries_ok true entries
        (logEvent (.callExtractor v kwargs)
          (logEvent (.callF arg kwargs) (openScope none st)))
        (fun p hp => by simpa using hval p hp)
      have htb : tryBody noFaults (some rcd) f arg kwargs
          (openScope none st) = (.ok v, stA) := by
        rw [tryBody_ok_extractor_record noFaults rcd f arg kwargs
          (openScope none st) v _ hf hr]
        simp only [recordDataAll, hA]
      unfold wrapperEvents
      rw [wrapper_of_tryBody_ok noFaults (some rcd) none f arg kwargs st
        stA v htb]
      have hfull : (closeScope none stA).trace = st.trace
          ++ ([Event.callF arg kwargs, Event.callExtractor v kwargs]
            ++ entries.map (fun p => Event.putAnn p.1 p.2)) := by
        rw [closeScope_trace, hAtr]
        simp [openScope]
      dsimp only
      rw [hfull, List.drop_left]
      constructor
      · simp [List.filter_append, Event.isPutAnn,
          filter_map_eq_self (fun p => Event.putAnn p.1 p.2)
            Event.isPutAnn (fun p => rfl) entries]
      · simp [List.filter_append, Event.isPutMeta,
          filter_map_eq_nil (fun p => Event.putAnn p.1 p.2)
            Event.isPutMeta (fun p => rfl) entries]
    | some n =>
      obtain ⟨stA, hA, hAtr⟩ := recordEntries_ok true entries
        (logEvent (.callExtractor v kwargs)
          (logEvent (.callF arg kwargs) (openScope (some n) st)))
        (fun p hp => by simpa using hval p hp)
      have htb : tryBody noFaults (some rcd) f arg kwargs
          (openScope (some n) st) = (.ok v, stA) := by
        rw [tryBody_ok_extractor_record noFaults rcd f arg kwargs
          (openScope (some n) st) v _ hf hr]
        simp only [recordDataAll, hA]
      unfold wrapperEvents
      rw [wrapper_of_tryBody_ok noFaults (some rcd) (some n) f arg kwargs st
        stA v htb]
      have hfull : (closeScope (some n) stA).trace = st.trace
          ++ (Event.beginSub n
            :: ([Event.callF arg kwargs, Event.callExtractor v kwargs]
              ++ (entries.map (fun p => Event.putAnn p.1 p.2)
                ++ [Event.endSub]))) := by
        rw [closeScope_trace, hAtr]
        simp [openScope, beginSubsegment]
      dsimp only
      rw [hfull]
      rw [show st.trace ++ (Event.beginSub n
            :: ([Event.callF arg kwargs, Event.callExtractor v kwargs]
              ++ (entries.map (fun p => Event.putAnn p.1 p.2)
                ++ [Event.endSub])))
          = st.trace ++ (Event.beginSub n
            :: ([Event.callF arg kwargs, Event.callExtractor v kwargs]
              ++ (entries.map (fun p => Event.putAnn p.1 p.2)
                ++ [Event.endSub]))) from rfl, List.drop_left]
      constructor
      · simp [List.filter_append, List.filter_cons,
          Event.isPutAnn,
          filter_map_eq_self (fun p => Event.putAnn p.1 p.2)
            Event.isPutAnn (fun p => rfl) entries]
      · simp [List.filter_append, List.filter_cons,
          Event.isPutMeta,
          filter_map_eq_nil (fun p => Event.putAnn p.1 p.2)
            Event.isPutMeta (fun p => rfl) entries]
  · intro hr hval
    cases subsegment with
    | none =>
      obtain ⟨stA, hA, hAtr⟩ := recordEntries_ok false entries
        (logEvent (.callExtractor v kwargs)
          (logEvent (.callF arg kwargs) (openScope none st)))
        (fun p hp => by simpa using hval p hp)
      have htb : tryBody noFaults (some rcd) f arg kwargs
          (openScope none st) = (.ok v, stA) := by
        rw [tryBody_ok_extractor_record noFaults rcd f arg kwargs
          (openScope none st) v _ hf hr]
        simp only [recordDataAll, hA]
      unfold wrapperEvents
      rw [wrapper_of_tryBody_ok noFaults (some rcd) none f arg kwargs st
        stA v htb]
      have hfull : (closeScope none stA).trace = st.trace
          ++ ([Event.callF arg kwargs, Event.callExtractor v kwargs]
            ++ entries.map (fun p => Event.putMeta p.1 p.2)) := by
        rw [closeScope_trace, hAtr]
        simp [openScope]
      dsimp only
      rw [hfull, List.drop_left]
      constructor
      · simp [List.filter_append, Event.isPutMeta,
          filter_map_eq_self (fun p => Event.putMeta p.1 p.2)
            Event.isPutMeta (fun p => rfl) entries]
      · simp [List.filter_append, Event.isPutAnn,
          filter_map_eq_nil (fun p => Event.putMeta p.1 p.2)
            Event.isPutAnn (fun p => rfl) entries]
    | some n =>
      obtain ⟨stA, hA, hAtr⟩ := recordEntries_ok false entries
        (logEvent (.callExtractor v kwargs)
          (logEvent (.callF arg kwargs) (openScope (some n) st)))
        (fun p hp => by simpa using hval p hp)
      have htb : tryBody noFaults (some rcd) f arg kwargs
          (openScope (some n) st) = (.ok v, stA) := by
        rw [tryBody_ok_extractor_record noFaults rcd f arg kwargs
          (openScope (some n) st) v _ hf hr]
        simp only [recordDataAll, hA]
      unfold wrapperEvents
      rw [wrapper_of_tryBody_ok noFaults (some rcd) (some n) f arg kwargs st
        stA v htb]
      have hfull : (closeScope (some n) stA).trace = st.trace
          ++ (Event.beginSub n
            :: ([Event.callF arg kwargs, Event.callExtractor v kwargs]
              ++ (entries.map (fun p => Event.putMeta p.1 p.2)
                ++ [Event.endSub]))) := by
        rw [closeScope_trace, hAtr]
        simp [openScope, beginSubsegment]
      dsimp only
      rw [hfull]
      rw [show st.trace ++ (Event.beginSub n
            :: ([Event.callF arg kwargs, Event.callExtractor v kwargs]
              ++ (entries.map (fun p => Event.putMeta p.1 p.2)
                ++ [Event.endSub])))
          = st.trace ++ (Event.beginSub n
            :: ([Event.callF arg kwargs, Event.callExtractor v kwargs]
              ++ (entries.map (fun p => Event.putMeta p.1 p.2)
                ++ [Event.endSub]))) from rfl, List.drop_left]
      constructor
      · simp [List.filter_append, List.filter_cons,
          Event.isPutMeta,
          filter_map_eq_self (fun p => Event.putMeta p.1 p.2)
            Event.isPutMeta (fun p => rfl) entries]
      · simp [List.filter_append, List.filter_cons,
          Event.isPutAnn,
          filter_map_eq_nil (fun p => Event.putMeta p.1 p.2)
            Event.isPutAnn (fun p => rfl) entries]

lemma isCallExtractor_false_of_write (e : Event) (h : e.isWrite = true) :
    e.isCallExtractor = false := by
  cases e <;> simp_all [Event.isWrite, Event.isCallExtractor]

lemma isCallF_false_of_body (e : Event)
    (h : (e.isWrite || e.isCallExtractor) = true) : e.isCallF = false := by
  cases e <;> simp_all [Event.isWrite, Event.isCallExtractor, Event.isCallF]

/-- Trace shape of the try body when `f` succeeds and a recorder is
present: the call events come first, followed only by backend writes. -/
lemma tryBody_extractor_trace (fl : Faults) (rcd : Extractor) (f : PyFun)
    (arg : List PyVal) (kwargs : Kwargs) (st : XrayState) (v : PyVal)
    (hf : f arg kwargs = .ok v) :
    ∃ δ, (tryBody fl (some rcd) f arg kwargs st).2.trace
        = st.trace
          ++ ([Event.callF arg kwargs, Event.callExtractor v kwargs] ++ δ)
      ∧ ∀ e ∈ δ, e.isWrite = true := by
  cases hr : rcd v kwargs with
  | error e =>
    rw [tryBody_ok_extractor_err fl rcd f arg kwargs st v e hf hr]
    exact ⟨[], by simp [logEvent], by simp⟩
  | ok data =>
    cases data with
    | other w =>
      rw [tryBody_ok_extractor_other fl rcd f arg kwargs st v w hf hr]
      exact ⟨[], by simp [logEvent], by simp⟩
    | record r =>
      rw [tryBody_ok_extractor_record fl rcd f arg kwargs st v r hf hr]
      obtain ⟨δ1, h1, hw1⟩ :=
        recordDataAll_trace_delta fl r.searchable true
          (logEvent (.callExtractor v kwargs)
            (logEvent (.callF arg kwargs) st))
      cases hrd1 : recordDataAll fl r.searchable true
          (logEvent (.callExtractor v kwargs)
            (logEvent (.callF arg kwargs) st)) with
      | mk r1 st2 =>
        rw [hrd1] at h1
        have h1' : st2.trace = st.trace
            ++ ([Event.callF arg kwargs, Event.callExtractor v kwargs]
              ++ δ1) := by
          simpa [logEvent] using h1
        cases r1 with
        | error e =>
          refine ⟨δ1, ?_, hw1⟩
          simp only [hrd1]
          exact h1'
        | ok u =>
          obtain ⟨δ2, h2, hw2⟩ :=
            recordDataAll_trace_delta fl r.non_searchable false st2
          cases hrd2 : recordDataAll fl r.non_searchable false st2 with
          | mk r2 st3 =>
            rw [hrd2] at h2
            have h2' : st3.trace = st2.trace ++ δ2 := h2
            refine ⟨δ1 ++ δ2, ?_, ?_⟩
            · cases r2 <;> simp only [hrd1, hrd2] <;> simp [h2', h1']
            · intro e he
              rcases List.mem_append.mp he with h | h
              · exact hw1 e h
              · exact hw2 e h

/-- Trace shape of the whole wrapper relative to the state left by the
try body: only backend writes (from error recording) can follow, then
the scope close. -/
lemma wrapper_trace_of_tryBody (fl : Faults) (recorder : Option Extractor)
    (subsegment : Option String) (f : PyFun) (arg : List PyVal)
    (kwargs : Kwargs) (st st1 : XrayState) (r : Except PyErr PyVal)
    (htb : tryBody fl recorder f arg kwargs (openScope subsegment st)
      = (r, st1)) :
    ∃ δ, (wrapper fl recorder subsegment f arg kwargs st).2.trace
        = st1.trace
          ++ (δ ++ (match subsegment with
              | some _ => [Event.endSub]
              | none => []))
      ∧ ∀ e ∈ δ, e.isWrite = true := by
  cases r with
  | ok v =>
    rw [wrapper_of_tryBody_ok fl recorder subsegment f arg kwargs st st1 v
      htb]
    exact ⟨[], by cases subsegment <;> simp [closeScope], by simp⟩
  | error e =>
    obtain ⟨δ2, h2, hw2⟩ := recordError_trace_delta fl e st1
    cases hre : recordError fl e st1 with
    | mk r2 st2 =>
      rw [hre] at h2
      have h2' : st2.trace = st1.trace ++ δ2 := h2
      refine ⟨δ2, ?_, hw2⟩
      cases r2 with
      | ok u =>
        rw [wrapper_of_tryBody_err_ok fl recorder subsegment f arg kwargs st
          st1 st2 e u htb hre]
        cases subsegment <;> simp [closeScope, h2']
      | error e2 =>
        rw [wrapper_of_tryBody_err_err fl recorder subsegment f arg kwargs st
          st1 st2 e e2 htb hre]
        cases subsegment <;> simp [closeScope, h2']

/-- C7 counterexample: `wrapper` passes the recorder only the keyword
arguments — invoked with the positional argument `7` and no keyword
arguments, the recorder receives the empty mapping as its second
argument, so the mapping does not contain the argument the call was made
with, refuting that the second argument is a mapping of the call's
arguments. -/
theorem extractor_kwargs_only_counterexample :
    (wrapper noFaults (some constExtractor) none fConst [PyVal.pint 7] []
        initState).2.trace
      = [Event.callF [PyVal.pint 7] [],
         Event.callExtractor (PyVal.pstr "r") []]
  ∧ PyVal.pint 7 ∉ List.map Prod.snd ([] : Kwargs) := by
  exact ⟨rfl, by simp⟩

/-- C7 (amended): when a recorder is supplied and the wrapped function
returns normally, the recorder is invoked exactly once, with `f`'s
result as its first argument and the keyword-argument mapping of the
call as its second argument (positional arguments are not included). -/
theorem wrapper_calls_extractor_once (fl : Faults) (rcd : Extractor)
    (subsegment : Option String) (f : PyFun) (arg : List PyVal)
    (kwargs : Kwargs) (st : XrayState) (v : PyVal)
    (hf : f arg kwargs = .ok v) :
    (wrapperEvents fl (some rcd) subsegment f arg kwargs st).filter
        Event.isCallExtractor = [Event.callExtractor v kwargs] := by
  obtain ⟨δA, hA, hwA⟩ := tryBody_extractor_trace fl rcd f arg kwargs
    (openScope subsegment st) v hf
  cases htb : tryBody fl (some rcd) f arg kwargs
      (openScope subsegment st) with
  | mk r st1 =>
    rw [htb] at hA
    have hA' : st1.trace = (openScope subsegment st).trace
        ++ ([Event.callF arg kwargs, Event.callExtractor v kwargs] ++ δA) :=
      hA
    obtain ⟨δB, hB, hwB⟩ := wrapper_trace_of_tryBody fl (some rcd) subsegment
      f arg kwargs st st1 r htb
    have hfA : δA.filter Event.isCallExtractor = [] :=
      List.filter_eq_nil_iff.mpr (fun a ha => by
        simp [isCallExtractor_false_of_write a (hwA a ha)])
    have hfB : δB.filter Event.isCallExtractor = [] :=
      List.filter_eq_nil_iff.mpr (fun a ha => by
        simp [isCallExtractor_false_of_write a (hwB a ha)])
    unfold wrapperEvents
    cases subsegment with
    | none =>
      have hfull : (wrapper fl (some rcd) none f arg kwargs st).2.trace
          = st.trace
            ++ (([Event.callF arg kwargs, Event.callExtractor v kwargs]
              ++ δA) ++ δB) := by
        rw [hB, hA']
        simp [openScope]
      rw [hfull, List.drop_left]
      simp [List.filter_append, List.filter_cons, Event.isCallExtractor,
        hfA, hfB]
    | some n =>
      have hfull : (wrapper fl (some rcd) (some n) f arg kwargs st).2.trace
          = st.trace
            ++ (Event.beginSub n
              :: (([Event.callF arg kwargs, Event.callExtractor v kwargs]
                ++ δA) ++ (δB ++ [Event.endSub]))) := by
        rw [hB, hA']
        simp [openScope, beginSubsegment]
      rw [hfull, List.drop_left]
      simp [List.filter_append, List.filter_cons, Event.isCallExtractor,
        hfA, hfB]

/-- Witness for the amended C7: a concrete wrapped call whose recorder
returns a non-Record value still sees exactly one extractor invocation,
with the result `"r"` and the (empty) keyword mapping. -/
theorem wrapper_calls_extractor_once_witness :
    (wrapperEvents noFaults (some constExtractor) none fConst [] []
        initState).filter Event.isCallExtractor
      = [Event.callExtractor (.pstr "r") []] :=
  wrapper_calls_extractor_once noFaults constExtractor none fConst [] []
    initState (.pstr "r") rfl

/-- C8: a recorder return value that is not a Record triggers no data
write and no error (the caller still gets `f`'s result); and a wrapped
call with no recorder performs no data writes at all while still opening
and closing its named scope around the call of `f`. -/
theorem wrapper_ignores_non_record (fl : Faults) (rcd : Extractor)
    (subsegment : Option String) (f : PyFun) (arg : List PyVal)
    (kwargs : Kwargs) (st : XrayState) (v w : PyVal) (n : String)
    (hf : f arg kwargs = .ok v) (hr : rcd v kwargs = .ok (.other w)) :
    (wrapper fl (some rcd) subsegment f arg kwargs st).1 = .ok (some v)
  ∧ (wrapperEvents fl (some rcd) subsegment f arg kwargs st).filter
      Event.isWrite = []
  ∧ wrapper fl none (some n) f arg kwargs st
      = (.ok (some v),
          endSubsegment (logEvent (.callF arg kwargs)
            (beginSubsegment n st))) := by
  have htb : tryBody fl (some rcd) f arg kwargs (openScope subsegment st)
      = (.ok v,
        logEvent (.callExtractor v kwargs)
          (logEvent (.callF arg kwargs) (openScope subsegment st))) :=
    tryBody_ok_extractor_other fl rcd f arg kwargs
      (openScope subsegment st) v w hf hr
  have hw := wrapper_of_tryBody_ok fl (some rcd) subsegment f arg kwargs st
    (logEvent (.callExtractor v kwargs)
      (logEvent (.callF arg kwargs) (openScope subsegment st))) v htb
  refine ⟨by rw [hw], ?_, ?_⟩
  · unfold wrapperEvents
    rw [hw]
    cases subsegment with
    | none =>
      have hfull : (closeScope none
          (logEvent (.callExtractor v kwargs)
            (logEvent (.callF arg kwargs) (openScope none st)))).trace
          = st.trace
            ++ [Event.callF arg kwargs, Event.callExtractor v kwargs] := by
        simp [closeScope, openScope]
      dsimp only
      rw [hfull, List.drop_left]
      rfl
    | some m =>
      have hfull : (closeScope (some m)
          (logEvent (.callExtractor v kwargs)
            (logEvent (.callF arg kwargs) (openScope (some m) st)))).trace
          = st.trace
            ++ [Event.beginSub m, Event.callF arg kwargs,
                Event.callExtractor v kwargs, Event.endSub] := by
        simp [closeScope, openScope, beginSubsegment]
      dsimp only
      rw [hfull, List.drop_left]
      rfl
  · have htb2 : tryBody fl none f arg kwargs (openScope (some n) st)
        = (.ok v, logEvent (.callF arg kwargs) (openScope (some n) st)) :=
      tryBody_ok_noRecorder fl f arg kwargs (openScope (some n) st) v hf
    rw [wrapper_of_tryBody_ok fl none (some n) f arg kwargs st
      (logEvent (.callF arg kwargs) (openScope (some n) st)) v htb2]
    rfl

/-- Witness for C8 at a concrete call: the recorder returns the
non-Record value `None`; the caller gets `"r"`, no write events are
issued, and the no-recorder variant with scope name `"ss1"` opens and
closes the scope around the single call event. -/
theorem wrapper_ignores_non_record_witness :
    (wrapper noFaults (some constExtractor) none fConst [] [] initState).1
        = .ok (some (.pstr "r"))
  ∧ (wrapperEvents noFaults (some constExtractor) none fConst [] []
      initState).filter Event.isWrite = []
  ∧ wrapper noFaults none (some "ss1") fConst [] [] initState
      = (.ok (some (.pstr "r")),
          endSubsegment (logEvent (.callF [] [])
            (beginSubsegment "ss1" initState))) :=
  wrapper_ignores_non_record noFaults constExtractor none fConst [] []
    initState (.pstr "r") .pnone "ss1" rfl rfl

lemma tryBody_ok_val (fl : Faults) (recorder : Option Extractor) (f : PyFun)
    (arg : List PyVal) (kwargs : Kwargs) (st : XrayState) (v : PyVal)
    (h : (tryBody fl recorder f arg kwargs st).1 = .ok v) :
    f arg kwargs = .ok v := by
  cases hf : f arg kwargs with
  | error e =>
    rw [tryBody_f_err fl recorder f arg kwargs st e hf] at h
    exact absurd h (by simp)
  | ok w =>
    suffices hv : w = v by rw [hv]
    cases recorder with
    | none =>
      rw [tryBody_ok_noRecorder fl f arg kwargs st w hf] at h
      simpa using h
    | some rcd =>
      cases hr : rcd w kwargs with
      | error e =>
        rw [tryBody_ok_extractor_err fl rcd f arg kwargs st w e hf hr] at h
        exact absurd h (by simp)
      | ok data =>
        cases data with
        | other u =>
          rw [tryBody_ok_extractor_other fl rcd f arg kwargs st w u hf hr]
            at h
          simpa using h
        | record r =>
          rw [tryBody_ok_extractor_record fl rcd f arg kwargs st w r hf hr]
            at h
          cases hrd1 : recordDataAll fl r.searchable true
              (logEvent (.callExtractor w kwargs)
                (logEvent (.callF arg kwargs) st)) with
          | mk r1 st2 =>
            simp only [hrd1] at h
            cases r1 with
            | error e => exact absurd h (by simp)
            | ok u =>
              cases hrd2 : recordDataAll fl r.non_searchable false st2 with
              | mk r2 st3 =>
                simp only [hrd2] at h
                cases r2 with
                | error e => exact absurd h (by simp)
                | ok u2 => simpa using h

/-- C9: when the try body of a wrapped call completes without raising,
the caller receives exactly the value returned by `f`, and `f` was
invoked exactly once, with the original positional and keyword
arguments of the call. -/
theorem wrapper_passthrough (fl : Faults) (recorder : Option Extractor)
    (subsegment : Option String) (f : PyFun) (arg : List PyVal)
    (kwargs : Kwargs) (st : XrayState) (v : PyVal)
    (h : (tryBody fl recorder f arg kwargs (openScope subsegment st)).1
      = .ok v) :
    f arg kwargs = .ok v
  ∧ (wrapper fl recorder subsegment f arg kwargs st).1 = .ok (some v)
  ∧ (wrapperEvents fl recorder subsegment f arg kwargs st).filter
      Event.isCallF = [Event.callF arg kwargs] := by
  obtain ⟨δA, hA, hwA⟩ := tryBody_trace_delta fl recorder f arg kwargs
    (openScope subsegment st)
  cases htb : tryBody fl recorder f arg kwargs (openScope subsegment st) with
  | mk r st1 =>
    rw [htb] at hA h
    have hr : r = .ok v := h
    subst hr
    have hA' : st1.trace = (openScope subsegment st).trace
        ++ (Event.callF arg kwargs :: δA) := hA
    obtain ⟨δB, hB, hwB⟩ := wrapper_trace_of_tryBody fl recorder subsegment
      f arg kwargs st st1 _ htb
    have hfA : δA.filter Event.isCallF = [] :=
      List.filter_eq_nil_iff.mpr (fun a ha => by
        simp [isCallF_false_of_body a (hwA a ha)])
    have hfB : δB.filter Event.isCallF = [] :=
      List.filter_eq_nil_iff.mpr (fun a ha => by
        simp [isCallF_false_of_body a (by simp [hwB a ha])])
    refine ⟨tryBody_ok_val fl recorder f arg kwargs
      (openScope subsegment st) v (by rw [htb]), ?_, ?_⟩
    · rw [wrapper_of_tryBody_ok fl recorder subsegment f arg kwargs st st1 v
        htb]
    · unfold wrapperEvents
      cases subsegment with
      | none =>
        have hfull : (wrapper fl recorder none f arg kwargs st).2.trace
            = st.trace ++ ((Event.callF arg kwargs :: δA) ++ δB) := by
          rw [hB, hA']
          simp [openScope]
        rw [hfull, List.drop_left]
        simp [List.filter_append, List.filter_cons, Event.isCallF, hfA, hfB]
      | some n =>
        have hfull : (wrapper fl recorder (some n) f arg kwargs st).2.trace
            = st.trace
              ++ (Event.beginSub n
                :: ((Event.callF arg kwargs :: δA)
                  ++ (δB ++ [Event.endSub]))) := by
          rw [hB, hA']
          simp [openScope, beginSubsegment]
        rw [hfull, List.drop_left]
        simp [List.filter_append, List.filter_cons, Event.isCallF, hfA, hfB]

/-- Witness for C9 at a concrete call: a fault-free run with no recorder
and no scope returns `f`'s value `"r"` to the caller and invokes `f`
once with the original (empty) arguments. -/
theorem wrapper_passthrough_witness :
    fConst [] [] = .ok (.pstr "r")
  ∧ (wrapper noFaults none none fConst [] [] initState).1
      = .ok (some (.pstr "r"))
  ∧ (wrapperEvents noFaults none none fConst [] [] initState).filter
      Event.isCallF = [Event.callF [] []] :=
  wrapper_passthrough noFaults none none fConst [] [] initState
    (.pstr "r") rfl

/-- C10: recording a Record is not atomic: for a Record whose searchable
half holds the valid entry `("a", 1)` before the invalid entry
`("b", dict())`, the wrapped call issues the indexed write for `"a"`
before the validation error is raised (as the event order shows), and
that write persists in the segment after the error-containment path has
run, alongside the error marker. -/
theorem wrapper_not_atomic :
    (wrapper noFaults (some partialRecordExtractor) none fOk [] []
        initState).1 = .ok none
  ∧ (wrapper noFaults (some partialRecordExtractor) none fOk [] []
      initState).2.trace
    = [Event.callF [] [], Event.callExtractor .pnone [],
       Event.putAnn "a" (.pint 1),
       Event.putAnn "instrumentation_error" (.pbool true),
       Event.putMeta "instrumentation_error_detail"
         (.pdict [(.pstr "message",
           .pstr (PyErr.valueError SEARCHABLE_TYPE_MSG).reprStr)])]
  ∧ (wrapper noFaults (some partialRecordExtractor) none fOk [] []
      initState).2.segment.annotations
    = [("a", PyVal.pint 1), ("instrumentation_error", PyVal.pbool true)] := by
  exact ⟨rfl, rfl, rfl⟩

/-- Witness for C6 at concrete Records: a searchable-only Record with the
single entry `("a", 1)` produces exactly the one annotation write and no
metadata writes; a non-searchable-only Record with the single entry
`("m", dict())` produces exactly the one metadata write and no
annotation writes. -/
theorem wrapper_record_halves_witness :
    (wrapperEvents noFaults (some annOnlyExtractor) none fOk [] []
        initState).filter Event.isPutAnn = [Event.putAnn "a" (.pint 1)]
  ∧ (wrapperEvents noFaults (some annOnlyExtractor) none fOk [] []
      initState).filter Event.isPutMeta = []
  ∧ (wrapperEvents noFaults (some metaOnlyExtractor) none fOk [] []
      initState).filter Event.isPutMeta = [Event.putMeta "m" (.pdict [])]
  ∧ (wrapperEvents noFaults (some metaOnlyExtractor) none fOk [] []
      initState).filter Event.isPutAnn = [] := by
  have h1 := (wrapper_record_halves annOnlyExtractor none fOk [] []
    initState .pnone [("a", PyVal.pint 1)] rfl).1 rfl
    (fun p hp => by rw [List.mem_singleton.mp hp]; rfl)
  have h2 := (wrapper_record_halves metaOnlyExtractor none fOk [] []
    initState .pnone [("m", PyVal.pdict [])] rfl).2 rfl
    (fun p hp => by rw [List.mem_singleton.mp hp]; rfl)
  exact ⟨h1.1, h1.2, h2.1, h2.2⟩

end Instrumentation
